import Mathlib

/-!
# Verification of the dedalus wiki-dump extraction pipeline

A shallow embedding of the pure core of the `dedalus` Rust crate
(src/index.rs, src/config.rs, src/content.rs, src/extract.rs,
src/parser.rs, src/checkpoint.rs, src/models.rs) together with theorems
settling the specification claims about it.

Conventions of the embedding:
* Rust `HashMap` values are modelled as association lists whose lookup
  takes the first matching key; maps produced by repeated insertion are
  handled through permutation / key-uniqueness hypotheses where the
  iteration order or insertion order matters.
* Rust `u32` / `u64` values are modelled as `Nat` (no arithmetic in the
  embedded code ever overflows: the only operations are equality tests,
  lookups and counter increments); `i32` is modelled as `Int`.
* Byte-level text scanners (`strip_templates`) are modelled over
  `List Char`; the scanned delimiters are ASCII so byte positions and
  character positions coincide on the relevant branches.
* The XML pull parser is modelled as a function over a list of abstract
  XML events, mirroring `quick_xml`'s event stream; the bz2 transport
  and the regular-expression engines are external libraries, so their
  outputs (events, capture lists) are inputs of the embedded functions.
-/

set_option autoImplicit false

namespace Dedalus

/-! ## src/config.rs -/

/-- `REDIRECT_MAX_DEPTH` from src/config.rs: maximum depth for following
redirect chains. -/
def REDIRECT_MAX_DEPTH : Nat := 5

/-- `CHECKPOINT_VERSION` from src/config.rs. -/
def CHECKPOINT_VERSION : Nat := 3

/-! ## src/index.rs : the Title Index -/

/-- `WikiIndex` from src/index.rs: `title_to_id` maps article titles to
ids, `redirects` maps a redirect source title to its target title.
The two `HashMap`s are modelled as association lists. -/
structure WikiIndex where
  title_to_id : List (String × Nat)
  redirects : List (String × String)

/-- Lookup in the `title_to_id` map (`self.title_to_id.get(current)`). -/
def WikiIndex.lookupA (idx : WikiIndex) (t : String) : Option Nat :=
  idx.title_to_id.lookup t

/-- Lookup in the `redirects` map (`self.redirects.get(current)`). -/
def WikiIndex.lookupR (idx : WikiIndex) (t : String) : Option String :=
  idx.redirects.lookup t

/-- The `while depth < REDIRECT_MAX_DEPTH` loop of
`WikiIndex::resolve_id`, with `fuel = REDIRECT_MAX_DEPTH - depth`
remaining iterations.  Each iteration first consults `title_to_id`,
then follows one `redirects` hop; when the fuel is exhausted the loop
exits and the function returns `none`. -/
def WikiIndex.resolveAux (idx : WikiIndex) : Nat → String → Option Nat
  | 0, _ => none
  | fuel + 1, current =>
    match idx.lookupA current with
    | some id => some id
    | none =>
      match idx.lookupR current with
      | some target => idx.resolveAux fuel target
      | none => none

/-- `WikiIndex::resolve_id` from src/index.rs (lines 85-103). -/
def WikiIndex.resolve_id (idx : WikiIndex) (title : String) : Option Nat :=
  idx.resolveAux REDIRECT_MAX_DEPTH title

/-- Instrumented variant of the `resolve_id` loop that additionally
returns the number of redirect hops actually followed (the final value
of `depth`).  Used to state the termination/resource bound of C9. -/
def WikiIndex.resolveAuxSteps (idx : WikiIndex) : Nat → String → Option Nat × Nat
  | 0, _ => (none, 0)
  | fuel + 1, current =>
    match idx.lookupA current with
    | some id => (some id, 0)
    | none =>
      match idx.lookupR current with
      | some target =>
        let r := idx.resolveAuxSteps fuel target
        (r.1, r.2 + 1)
      | none => (none, 0)

/-- `resolve_id` together with the number of redirect hops followed. -/
def WikiIndex.resolveSteps (idx : WikiIndex) (title : String) : Option Nat × Nat :=
  idx.resolveAuxSteps REDIRECT_MAX_DEPTH title

/-- Titles reachable from `t` by following `redirects` entries. -/
inductive WikiIndex.Reaches (idx : WikiIndex) : String → String → Prop
  | refl (t : String) : WikiIndex.Reaches idx t t
  | step {t s u : String} : WikiIndex.Reaches idx t s →
      idx.lookupR s = some u → WikiIndex.Reaches idx t u

/-- `WikiIndex::to_serializable` from src/index.rs (lines 55-67): the two
maps are dumped as vectors of pairs (in an arbitrary `HashMap` iteration
order; theorems quantify over permutations of this output). -/
def WikiIndex.to_serializable (idx : WikiIndex) :
    List (String × Nat) × List (String × String) :=
  (idx.title_to_id, idx.redirects)

/-- Building a `HashMap` from a list of pairs: later insertions shadow
earlier ones.  Since `List.lookup` takes the *first* matching binding,
reversing the insertion order gives exactly the last-insertion-wins
lookup behaviour of `HashMap::from_iter`. -/
def hashMapOfPairs {α β : Type} (l : List (α × β)) : List (α × β) :=
  l.reverse

/-- `WikiIndex::from_serializable` from src/index.rs (lines 70-78):
`articles.into_iter().collect()` / `redirects.into_iter().collect()`. -/
def WikiIndex.from_serializable (articles : List (String × Nat))
    (redirects : List (String × String)) : WikiIndex :=
  { title_to_id := hashMapOfPairs articles
    redirects := hashMapOfPairs redirects }

/-- The `HashMap` key-uniqueness invariant: each key occurs at most once.
Holds for both maps of any index built by `HashMap` insertions. -/
def keysNodup {α β : Type} (l : List (α × β)) : Prop :=
  (l.map Prod.fst).Nodup

/-- A well-formed index: both underlying maps have unique keys. -/
def WikiIndex.WF (idx : WikiIndex) : Prop :=
  keysNodup idx.title_to_id ∧ keysNodup idx.redirects

instance {α β : Type} [DecidableEq α] (l : List (α × β)) :
    Decidable (keysNodup l) := by
  unfold keysNodup; infer_instance

instance (idx : WikiIndex) : Decidable idx.WF := by
  unfold WikiIndex.WF; infer_instance

/-! ## src/checkpoint.rs : the Checkpoint Store -/

/-- `CheckpointStats` from src/checkpoint.rs (lines 14-26): ten `u64`
counters, modelled as `Nat`. -/
structure CheckpointStats where
  articles_processed : Nat
  edges_extracted : Nat
  blobs_written : Nat
  invalid_links : Nat
  categories_found : Nat
  category_edges : Nat
  see_also_edges : Nat
  infoboxes_extracted : Nat
  images_found : Nat
  external_links_found : Nat
deriving DecidableEq, Repr

/-- `Checkpoint` from src/checkpoint.rs (lines 28-37).  Note: the struct
has no `csv_shard_count` field. -/
structure Checkpoint where
  version : Nat
  input_path : String
  input_mtime : Nat
  output_dir : String
  shard_count : Nat
  last_processed_id : Nat
  stats : CheckpointStats
deriving DecidableEq, Repr

/-- `load_if_valid` from src/checkpoint.rs (lines 55-134).  The file
system and the bincode decoder are external, so their outcomes are
inputs: `fileExists` models `path.exists()`, `decodeResult` models
`options.deserialize_from(reader)` (`none` on any decode error, which
the source logs and demotes to a miss), and `mtimeResult` models
`get_input_mtime(input_path)` whose failure the source propagates with
`?`.  The validation checks run in source order. -/
def load_if_valid (fileExists : Bool) (decodeResult : Option Checkpoint)
    (input_path output_dir : String) (shard_count : Nat)
    (mtimeResult : Except String Nat) : Except String (Option Checkpoint) :=
  if !fileExists then .ok none
  else
    match decodeResult with
    | none => .ok none
    | some checkpoint =>
      if checkpoint.version ≠ CHECKPOINT_VERSION then .ok none
      else if checkpoint.input_path ≠ input_path then .ok none
      else
        match mtimeResult with
        | .error e => .error e
        | .ok current_mtime =>
          if checkpoint.input_mtime ≠ current_mtime then .ok none
          else if checkpoint.output_dir ≠ output_dir then .ok none
          else if checkpoint.shard_count ≠ shard_count then .ok none
          else .ok (some checkpoint)

/-- Modelled from the spec (§3, §4.E), for comparison with the source:
the spec's checkpoint record additionally carries `csv_shard_count`. -/
structure SpecCheckpoint where
  version : Nat
  input_path : String
  input_mtime : Nat
  output_dir : String
  shard_count : Nat
  csv_shard_count : Nat
  last_processed_id : Nat
  stats : CheckpointStats
deriving DecidableEq, Repr

/-- Modelled from the spec (§4.E `load_if_valid(input_path, output_dir,
shard_count, csv_shard_count)`), for comparison with the source: the
spec's validation also takes the run's `csv_shard_count` and requires
it to equal the stored one (\"shard parameters equality\"). -/
def spec_load_if_valid (fileExists : Bool) (decodeResult : Option SpecCheckpoint)
    (input_path output_dir : String) (shard_count csv_shard_count : Nat)
    (mtimeResult : Except String Nat) : Except String (Option SpecCheckpoint) :=
  if !fileExists then .ok none
  else
    match decodeResult with
    | none => .ok none
    | some checkpoint =>
      if checkpoint.version ≠ CHECKPOINT_VERSION then .ok none
      else if checkpoint.input_path ≠ input_path then .ok none
      else
        match mtimeResult with
        | .error e => .error e
        | .ok current_mtime =>
          if checkpoint.input_mtime ≠ current_mtime then .ok none
          else if checkpoint.output_dir ≠ output_dir then .ok none
          else if checkpoint.shard_count ≠ shard_count then .ok none
          else if checkpoint.csv_shard_count ≠ csv_shard_count then .ok none
          else .ok (some checkpoint)

/-! ## src/content.rs : template stripping and field sanitisation -/

/-- The two nested loops of `strip_templates` (src/content.rs, lines
120-158) fused into one scanner over the remaining characters.  Mode
`none` is the outer loop: on `{{` it enters the inner loop with depth 1
(the inner loop's first iteration re-reads the opener), otherwise it
emits the current character.  Mode `some depth` is the inner loop: `{{`
increments the depth, `}}` decrements it and returns to the outer loop
once the depth reaches 0, anything else is skipped.  In either mode a
remainder of fewer than two characters ends the scan (`i + 1 <
bytes.len()` fails) and the remainder is emitted via the final
`text[run_start..]` push. -/
def stripScan : Option Nat → List Char → List Char
  | none, a :: b :: rest =>
    if a = '{' ∧ b = '{' then stripScan (some 1) rest
    else a :: stripScan none (b :: rest)
  | none, l => l
  | some depth, a :: b :: rest =>
    if a = '{' ∧ b = '{' then stripScan (some (depth + 1)) rest
    else if a = '}' ∧ b = '}' then
      if depth = 1 then stripScan none rest
      else stripScan (some (depth - 1)) rest
    else stripScan (some depth) (b :: rest)
  | some _, l => l
termination_by _ l => l.length
decreasing_by all_goals simp <;> omega

/-- `strip_templates` from src/content.rs (lines 120-158), over the
text's characters. -/
def strip_templates (text : List Char) : List Char :=
  stripScan none text

/-- Modelled from the spec's words (§4.B strip_templates), for
comparison with the source: identical scanner, except that when a `{{`
is never closed the *entire* remainder is dropped (\"fail-closed\"),
including a final stray character. -/
def specStripScan : Option Nat → List Char → List Char
  | none, a :: b :: rest =>
    if a = '{' ∧ b = '{' then specStripScan (some 1) rest
    else a :: specStripScan none (b :: rest)
  | none, l => l
  | some depth, a :: b :: rest =>
    if a = '{' ∧ b = '{' then specStripScan (some (depth + 1)) rest
    else if a = '}' ∧ b = '}' then
      if depth = 1 then specStripScan none rest
      else specStripScan (some (depth - 1)) rest
    else specStripScan (some depth) (b :: rest)
  | some _, _ => []
termination_by _ l => l.length
decreasing_by all_goals simp <;> omega

/-- Modelled from the spec's words: `strip_templates` as §4.B describes
it. -/
def spec_strip_templates (text : List Char) : List Char :=
  specStripScan none text

/-- Rust `char::is_whitespace`, restricted to its ASCII fragment (the
only whitespace characters the claims and the embedded inputs
involve). -/
def isRustWhitespace (c : Char) : Bool :=
  c = ' ' ∨ c = '\t' ∨ c = '\n' ∨ c = '\r' ∨ c = Char.ofNat 11 ∨ c = Char.ofNat 12

/-- Rust `str::trim`. -/
def trimChars (s : List Char) : List Char :=
  ((s.dropWhile isRustWhitespace).reverse.dropWhile isRustWhitespace).reverse

/-- Rust `str::starts_with` over the underlying characters. -/
def rustStartsWith (s pre : String) : Bool :=
  pre.data.isPrefixOf s.data

/-- Rust `s.replace(['\n', '\r'], " ")`. -/
def replaceNewlines (s : List Char) : List Char :=
  s.map fun c => if c = '\n' ∨ c = '\r' then ' ' else c

/-- Rust `str::split_whitespace`: maximal runs of non-whitespace
characters, in order. -/
def splitWs : List Char → List (List Char)
  | [] => []
  | c :: cs =>
    if isRustWhitespace c then splitWs cs
    else
      (c :: cs).takeWhile (fun x => !isRustWhitespace x) ::
        splitWs ((c :: cs).dropWhile fun x => !isRustWhitespace x)
termination_by l => l.length
decreasing_by
  · simp
  · simp [List.dropWhile_cons, *]
    exact Nat.lt_succ_of_le (List.dropWhile_suffix _).sublist.length_le

/-- Rust `Vec::join(" ")`: the pieces interleaved with single spaces. -/
def joinWords : List (List Char) → List Char
  | [] => []
  | [w] => w
  | w :: ws => w ++ ' ' :: joinWords ws

/-- `sanitize_field` from src/content.rs (lines 84-93): collapses
newlines into spaces so CSV fields stay on a single line. -/
def sanitize_field (s : List Char) : List Char :=
  if s.contains '\n' ∨ s.contains '\r' then
    joinWords (splitWs (replaceNewlines s))
  else s

/-- `extract_categories` from src/content.rs (lines 75-81).  The regex
engine is an external library; the list of capture-group-1 texts is the
input, and the function applies the source's
`map(|c| sanitize_field(c[1].trim()))` and `filter(|s| !s.is_empty())`
pipeline. -/
def extract_categories (captures : List (List Char)) : List (List Char) :=
  (captures.map fun c => sanitize_field (trimChars c)).filter fun s => !s.isEmpty

/-- `extract_images` from src/content.rs (lines 95-101): same pipeline
over the image-regex captures. -/
def extract_images (captures : List (List Char)) : List (List Char) :=
  (captures.map fun c => sanitize_field (trimChars c)).filter fun s => !s.isEmpty

/-- `extract_external_links` from src/content.rs (lines 103-109): same
pipeline over the URL-regex captures. -/
def extract_external_links (captures : List (List Char)) : List (List Char) :=
  (captures.map fun c => sanitize_field (trimChars c)).filter fun s => !s.isEmpty

/-- No two adjacent characters are both whitespace: \"runs of whitespace
collapsed\". -/
def wsCollapsed (l : List Char) : Prop :=
  l.Chain' fun a b => ¬(isRustWhitespace a = true ∧ isRustWhitespace b = true)

instance (l : List Char) : Decidable (wsCollapsed l) :=
  inferInstanceAs (Decidable (l.Chain' _))

/-! ## src/extract.rs : per-page link processing -/

/-- `strip_section_anchor` from src/extract.rs (lines 35-37):
`target.split('#').next().unwrap_or(target)`. -/
def strip_section_anchor (target : String) : String :=
  (target.splitOn "#").headD target

/-- `is_namespace_link` from src/extract.rs (lines 21-33). -/
def is_namespace_link (target : String) : Bool :=
  rustStartsWith target "Category:" || rustStartsWith target "File:" ||
  rustStartsWith target "Image:" || rustStartsWith target "Template:" ||
  rustStartsWith target "Wikipedia:" || rustStartsWith target "Help:" ||
  rustStartsWith target "Portal:" || rustStartsWith target "Draft:" ||
  rustStartsWith target "User:" || rustStartsWith target "Module:" ||
  rustStartsWith target "MediaWiki:"

/-- One match of `LINK_REGEX` as handed to the loop in `run_extraction`:
the byte offset of the whole match (`caps.get(0).unwrap().start()`) and
the capture-group-1 target text (`&caps[1]`). -/
structure LinkMatch where
  start : Nat
  target : String
deriving DecidableEq, Repr

/-- The edge-type selection of src/extract.rs (lines 292-297):
`SEE_ALSO` when a see-also section start exists and the match offset is
at or beyond it, `LINKS_TO` otherwise. -/
def edgeTypeFor (seeAlsoStart : Option Nat) (matchStart : Nat) : String :=
  match seeAlsoStart with
  | some sa_start => if sa_start ≤ matchStart then "SEE_ALSO" else "LINKS_TO"
  | none => "LINKS_TO"

/-- The wikilink loop of `run_extraction` (src/extract.rs, lines
279-302): accumulates `local_edges` (target id, edge type) in match
order and counts unresolved targets in `invalid_count`. -/
def processLinks (idx : WikiIndex) (seeAlsoStart : Option Nat) :
    List LinkMatch → List (Nat × String) × Nat
  | [] => ([], 0)
  | m :: ms =>
    let target_title := strip_section_anchor m.target
    if target_title.isEmpty || is_namespace_link target_title then
      processLinks idx seeAlsoStart ms
    else
      match idx.resolve_id target_title with
      | some target_id =>
        let r := processLinks idx seeAlsoStart ms
        ((target_id, edgeTypeFor seeAlsoStart m.start) :: r.1, r.2)
      | none =>
        let r := processLinks idx seeAlsoStart ms
        (r.1, r.2 + 1)

/-- Modelled from the claim's words, for comparison with the source: the
emitted edges are, in order, one `(resolved id, classified type)` pair
for each match that survives the anchor cut and namespace filter and
resolves through the Title Index. -/
def claimEdges (idx : WikiIndex) (seeAlsoStart : Option Nat)
    (ms : List LinkMatch) : List (Nat × String) :=
  ms.filterMap fun m =>
    let t := strip_section_anchor m.target
    if t.isEmpty || is_namespace_link t then none
    else (idx.resolve_id t).map fun id => (id, edgeTypeFor seeAlsoStart m.start)

/-- Modelled from the claim's words: each unresolved surviving target
adds exactly one to the invalid-link count. -/
def claimInvalid (idx : WikiIndex) (ms : List LinkMatch) : Nat :=
  (ms.filter fun m =>
    let t := strip_section_anchor m.target
    !(t.isEmpty || is_namespace_link t) && (idx.resolve_id t).isNone).length

/-! ## src/models.rs and src/parser.rs : page records and the dump reader -/

/-- `PageType` from src/models.rs (lines 4-9). -/
inductive PageType where
  | article : PageType
  | redirect : String → PageType
  | special : PageType
deriving DecidableEq, Repr

/-- `WikiPage` from src/models.rs (lines 11-22). -/
structure WikiPage where
  id : Nat
  title : String
  page_type : PageType
  text : Option String
  ns : Option Int
  timestamp : Option String
deriving DecidableEq, Repr

/-- The XML element names `WikiReader::next` dispatches on; every other
element name falls into the catch-all arm and is modelled as
`other`. -/
inductive Tag where
  | page | title | id | ns | timestamp | text | redirect | other
deriving DecidableEq, Repr

/-- One `quick_xml` event as consumed by `WikiReader::next`
(src/parser.rs, lines 133-233).  The decompressor and XML tokenizer are
external, so the event stream is the input of the embedded reader:
`start`/`emptyTag` carry the `title="…"` attribute payload when the
source's `try_get_attribute("title")` would yield one; `chars` carries
the raw text (used for `<id>`/`<ns>` via `from_utf8_lossy`) and the
XML-unescaped text when `e.unescape()` succeeds (`none` models an
unescape error, which the source skips); `parseError` models
`Err(_)` from `read_event_into`; end of input models `Event::Eof`. -/
inductive XmlEvent where
  | start : Tag → Option String → XmlEvent
  | emptyTag : Tag → Option String → XmlEvent
  | chars : String → Option String → XmlEvent
  | close : Tag → XmlEvent
  | parseError : XmlEvent
deriving DecidableEq, Repr

/-- The local state of one `WikiReader::next` call (src/parser.rs,
lines 119-130), reinitialised at every call. -/
structure ReaderState where
  current_id : Option Nat
  current_title : Option String
  current_text : Option String
  redirect_target : Option String
  current_ns : Option Int
  current_timestamp : Option String
  in_title : Bool
  in_id : Bool
  in_text : Bool
  in_ns : Bool
  in_timestamp : Bool
deriving DecidableEq, Repr

/-- The state at the top of a `next` call: everything `None`/false. -/
def initReaderState : ReaderState :=
  ⟨none, none, none, none, none, none, false, false, false, false, false⟩

/-- ASCII decimal digit test. -/
def isAsciiDigit (c : Char) : Bool :=
  48 ≤ c.toNat ∧ c.toNat ≤ 57

/-- Decimal value of a digit list. -/
def digitsVal (ds : List Char) : Nat :=
  ds.foldl (fun acc c => acc * 10 + (c.toNat - 48)) 0

/-- Rust `s.trim().parse::<u32>().ok()`: whitespace-trim, then an
optional leading `+` followed by one or more ASCII digits whose value
fits in a `u32`. -/
def parseU32 (s : String) : Option Nat :=
  let cs := trimChars s.data
  let ds := match cs with
    | '+' :: rest => rest
    | _ => cs
  if ds.isEmpty then none
  else if ds.all isAsciiDigit then
    if digitsVal ds < 2 ^ 32 then some (digitsVal ds) else none
  else none

/-- Rust `s.trim().parse::<i32>().ok()`: whitespace-trim, then an
optional sign followed by one or more ASCII digits, the signed value
fitting in an `i32`. -/
def parseI32 (s : String) : Option Int :=
  let cs := trimChars s.data
  let sign : Int := match cs with
    | '-' :: _ => -1
    | _ => 1
  let ds := match cs with
    | '-' :: rest => rest
    | '+' :: rest => rest
    | _ => cs
  if ds.isEmpty then none
  else if ds.all isAsciiDigit then
    let v : Int := sign * digitsVal ds
    if -(2 ^ 31) ≤ v ∧ v < 2 ^ 31 then some v else none
  else none


/-- The page-type classification at `</page>` (src/parser.rs, lines
194-209), applied to the `redirect_target`, `current_ns` and title in
scope there. -/
def classifyPage (redirect_target : Option String) (current_ns : Option Int)
    (title : String) : PageType :=
  match redirect_target with
  | some target => PageType.redirect target
  | none =>
    match current_ns with
    | some ns => if ns = 0 then PageType.article else PageType.special
    | none =>
      if rustStartsWith title "File:" || rustStartsWith title "Category:" ||
          rustStartsWith title "Template:" then
        PageType.special
      else PageType.article

/-- Modelled from the claim's words, for comparison with the source: a
`<redirect title="X"/>` observed in the page gives `Redirect(X)`; else
a present non-zero `<ns>` gives `Special`; else a missing `<ns>` with a
`File:`/`Category:`/`Template:` title gives `Special`; otherwise
`Article`. -/
def claimClassify (observedRedirect : Option String) (ns : Option Int)
    (title : String) : PageType :=
  match observedRedirect with
  | some target => PageType.redirect target
  | none =>
    match ns with
    | some n => if n = 0 then PageType.article else PageType.special
    | none =>
      if rustStartsWith title "File:" || rustStartsWith title "Category:" ||
          rustStartsWith title "Template:" then
        PageType.special
      else PageType.article

/-- `WikiReader::next` from src/parser.rs (lines 118-236), as a function
of the reader state and the remaining event stream.  Returns the
emitted page record together with the events not yet consumed, or
`none` at `Event::Eof` (end of the list) or on an XML parse error. -/
def readNext (skip_text : Bool) : ReaderState → List XmlEvent → Option (WikiPage × List XmlEvent)
  | _, [] => none
  | st, ev :: rest =>
    match ev with
    | .start t attr =>
      match t with
      | .page => readNext skip_text st rest
      | .title => readNext skip_text { st with in_title := true } rest
      | .id =>
        if st.current_id.isNone then readNext skip_text { st with in_id := true } rest
        else readNext skip_text st rest
      | .ns => readNext skip_text { st with in_ns := true } rest
      | .timestamp => readNext skip_text { st with in_timestamp := true } rest
      | .text =>
        if skip_text then readNext skip_text st rest
        else readNext skip_text { st with in_text := true } rest
      | .redirect =>
        match attr with
        | some target => readNext skip_text { st with redirect_target := some target } rest
        | none => readNext skip_text st rest
      | .other => readNext skip_text st rest
    | .emptyTag t attr =>
      match t, attr with
      | .redirect, some target =>
        readNext skip_text { st with redirect_target := some target } rest
      | _, _ => readNext skip_text st rest
    | .chars raw unescaped =>
      if st.in_title then
        match unescaped with
        | some s => readNext skip_text { st with current_title := some s } rest
        | none => readNext skip_text st rest
      else if st.in_id then
        readNext skip_text { st with current_id := parseU32 raw } rest
      else if st.in_ns then
        readNext skip_text { st with current_ns := parseI32 raw } rest
      else if st.in_timestamp then
        match unescaped with
        | some s => readNext skip_text { st with current_timestamp := some s } rest
        | none => readNext skip_text st rest
      else if st.in_text then
        match unescaped with
        | some s => readNext skip_text { st with current_text := some s } rest
        | none => readNext skip_text st rest
      else readNext skip_text st rest
    | .close t =>
      match t with
      | .title => readNext skip_text { st with in_title := false } rest
      | .id => readNext skip_text { st with in_id := false } rest
      | .ns => readNext skip_text { st with in_ns := false } rest
      | .timestamp => readNext skip_text { st with in_timestamp := false } rest
      | .text => readNext skip_text { st with in_text := false } rest
      | .page =>
        match st.current_id, st.current_title with
        | some id, some title =>
          some (⟨id, title, classifyPage st.redirect_target st.current_ns title,
            st.current_text, st.current_ns, st.current_timestamp⟩, rest)
        | _, _ => readNext skip_text { st with current_title := none } rest
      | .redirect => readNext skip_text st rest
      | .other => readNext skip_text st rest
    | .parseError => none

/-- The events of a `<title>…</title>` element. -/
def titleEvents (t : String) : List XmlEvent :=
  [.start .title none, .chars t (some t), .close .title]

/-- The events of an `<id>…</id>` element. -/
def idEvents (s : String) : List XmlEvent :=
  [.start .id none, .chars s (some s), .close .id]

/-- The events of an optional `<ns>…</ns>` element. -/
def nsEvents : Option String → List XmlEvent
  | none => []
  | some s => [.start .ns none, .chars s (some s), .close .ns]

/-- The events of an optional `<redirect title="…"/>` element. -/
def redirectEvents : Option String → List XmlEvent
  | none => []
  | some target => [.emptyTag .redirect (some target)]

/-- The events of one well-formed `<page>` element with a title, an id,
an optional redirect and an optional namespace. -/
def pageEvents (t sid : String) (red : Option String) (sns : Option String) :
    List XmlEvent :=
  [.start .page none] ++ titleEvents t ++ idEvents sid ++ redirectEvents red ++
    nsEvents sns ++ [.close .page]

/-- A `<page>` with a title, a first `<id>` with text `s1`, and a
`<revision>` (an element the reader does not dispatch on) containing a
second `<id>` with text `s2` — the shape of every real dump page. -/
def revisionPageEvents (t s1 s2 : String) : List XmlEvent :=
  [.start .page none] ++ titleEvents t ++ idEvents s1 ++
    [.start .other none] ++ idEvents s2 ++ [.close .other] ++ [.close .page]

/-- A `<page>` with no `<title>` element at all. -/
def noTitlePageEvents (s : String) : List XmlEvent :=
  [.start .page none] ++ idEvents s ++ [.close .page]

/-! ## src/models.rs : the article side-blob and its JSON form -/

/-- `Infobox` from src/infobox.rs (lines 3-7). -/
structure Infobox where
  infobox_type : String
  fields : List (String × String)
deriving DecidableEq, Repr

/-- `ArticleBlob` from src/models.rs (lines 28-43). -/
structure ArticleBlob where
  id : Nat
  title : String
  abstract_text : String
  categories : List String
  infoboxes : List Infobox
  sections : List String
  timestamp : Option String
  is_disambiguation : Bool
deriving DecidableEq, Repr

/-- JSON values, as far as the blob serialization needs them. -/
inductive Json where
  | str : String → Json
  | num : Nat → Json
  | bool : Bool → Json
  | arr : List Json → Json
  | obj : List (String × Json) → Json

/-- serde-JSON encoding of an `Infobox` (derived `Serialize`: a JSON
object with the two fields in declaration order; a Rust tuple encodes
as a two-element array). -/
def serializeInfobox (ib : Infobox) : Json :=
  Json.obj [("infobox_type", Json.str ib.infobox_type),
    ("fields", Json.arr (ib.fields.map fun p => Json.arr [Json.str p.1, Json.str p.2]))]

/-- serde-JSON encoding of an `ArticleBlob` as the ordered field list of
the emitted JSON object, following the derived `Serialize` with the
`skip_serializing_if` attributes of src/models.rs: `categories`,
`infoboxes` and `sections` are skipped when empty, `timestamp` when
`None`, `is_disambiguation` when false. -/
def serializeBlob (b : ArticleBlob) : List (String × Json) :=
  [("id", Json.num b.id), ("title", Json.str b.title),
    ("abstract_text", Json.str b.abstract_text)] ++
  (if b.categories.isEmpty then [] else
    [("categories", Json.arr (b.categories.map Json.str))]) ++
  (if b.infoboxes.isEmpty then [] else
    [("infoboxes", Json.arr (b.infoboxes.map serializeInfobox))]) ++
  (if b.sections.isEmpty then [] else
    [("sections", Json.arr (b.sections.map Json.str))]) ++
  (match b.timestamp with
   | none => []
   | some ts => [("timestamp", Json.str ts)]) ++
  (if b.is_disambiguation then [("is_disambiguation", Json.bool true)] else [])

/-- Reading a JSON string. -/
def Json.asStr : Json → Option String
  | .str s => some s
  | _ => none

/-- Reading a JSON number as a `u32`. -/
def Json.asNum : Json → Option Nat
  | .num n => some n
  | _ => none

/-- Reading a JSON boolean. -/
def Json.asBool : Json → Option Bool
  | .bool b => some b
  | _ => none

/-- Element-wise decoding of a sequence, failing on the first element
that fails (serde's sequence semantics). -/
def optionMapM {α β : Type} (f : α → Option β) : List α → Option (List β)
  | [] => some []
  | a :: l =>
    match f a with
    | none => none
    | some b => (optionMapM f l).map fun bs => b :: bs

/-- Reading a JSON array of strings. -/
def Json.asStrList : Json → Option (List String)
  | .arr l => optionMapM Json.asStr l
  | _ => none

/-- Reading a `(String, String)` tuple from its two-element array
encoding. -/
def Json.asStrPair : Json → Option (String × String)
  | .arr [a, b] =>
    match a.asStr, b.asStr with
    | some x, some y => some (x, y)
    | _, _ => none
  | _ => none

/-- serde-JSON decoding of an `Infobox` (derived `Deserialize`: both
fields required). -/
def parseInfobox : Json → Option Infobox
  | .obj fs => do
    let t ← (fs.lookup "infobox_type").bind Json.asStr
    let fv ← fs.lookup "fields"
    match fv with
    | .arr l => do
      let fields ← optionMapM Json.asStrPair l
      pure ⟨t, fields⟩
    | _ => none
  | _ => none

/-- serde-JSON decoding of an `ArticleBlob` from a JSON object's field
list, following the derived `Deserialize` with the `default`
attributes of src/models.rs: a missing `categories`/`infoboxes`/
`sections` defaults to empty, a missing `timestamp` to `None`, a
missing `is_disambiguation` to false; `id`, `title` and
`abstract_text` are required. -/
def parseBlob (fs : List (String × Json)) : Option ArticleBlob := do
  let id ← (fs.lookup "id").bind Json.asNum
  let title ← (fs.lookup "title").bind Json.asStr
  let abstract_text ← (fs.lookup "abstract_text").bind Json.asStr
  let categories ← match fs.lookup "categories" with
    | none => some []
    | some v => v.asStrList
  let infoboxes ← match fs.lookup "infoboxes" with
    | none => some []
    | some v =>
      match v with
      | .arr l => optionMapM parseInfobox l
      | _ => none
  let sections ← match fs.lookup "sections" with
    | none => some []
    | some v => v.asStrList
  let timestamp ← match fs.lookup "timestamp" with
    | none => some none
    | some v => (v.asStr).map some
  let is_disambiguation ← match fs.lookup "is_disambiguation" with
    | none => some false
    | some v => v.asBool
  pure ⟨id, title, abstract_text, categories, infoboxes, sections, timestamp,
    is_disambiguation⟩

end Dedalus

namespace Dedalus

/-! ## Theorems about the Title Index (claims C1, C7, C9) -/

section IndexLemmas

variable (idx : WikiIndex)

/-- If every title on a redirect chain below index `k` misses
`title_to_id` and hops to the next chain element, then resolving from
chain position `j` with enough fuel to reach `k` returns the id stored
for the chain element at `k`. -/
theorem resolveAux_chain_hits (c : Nat → String) (k : Nat) (id : Nat)
    (hA : ∀ i, i < k → idx.lookupA (c i) = none)
    (hR : ∀ i, i < k → idx.lookupR (c i) = some (c (i + 1)))
    (hk : idx.lookupA (c k) = some id) :
    ∀ fuel j, j ≤ k → k < j + fuel → idx.resolveAux fuel (c j) = some id := by
  intro fuel
  induction fuel with
  | zero =>
    intro j hj hlt
    omega
  | succ n ih =>
    intro j hj hlt
    rcases Nat.eq_or_lt_of_le hj with hj' | hj'
    · subst hj'
      simp [WikiIndex.resolveAux, hk]
    · have hAj := hA j hj'
      have hRj := hR j hj'
      simp [WikiIndex.resolveAux, hAj, hRj]
      exact ih (j + 1) hj' (by omega)

/-- If every title on the chain strictly below `j + fuel` misses
`title_to_id` and hops onward, the loop exhausts its fuel and returns
`none`. -/
theorem resolveAux_chain_deep (c : Nat → String)
    (hA : ∀ i, idx.lookupA (c i) = none)
    (hR : ∀ i, idx.lookupR (c i) = some (c (i + 1))) :
    ∀ fuel j, idx.resolveAux fuel (c j) = none := by
  intro fuel
  induction fuel with
  | zero => intro j; rfl
  | succ n ih =>
    intro j
    simp [WikiIndex.resolveAux, hA j, hR j]
    exact ih (j + 1)

end IndexLemmas

/-- C1 (amended): a redirect chain `c 0 → c 1 → ⋯ → c k` (each hop a
`redirects` entry, no intermediate title an article) resolves to the id
of the article at `c k` when it takes at most `REDIRECT_MAX_DEPTH - 1`
(= 4) hops, and resolving returns `none` as soon as
`REDIRECT_MAX_DEPTH` (= 5) hops would be required, because the loop
re-checks `title_to_id` only at depths `0 .. REDIRECT_MAX_DEPTH - 1`. -/
theorem resolve_id_chain_boundary (idx : WikiIndex) (c : Nat → String) (k : Nat)
    (hA : ∀ i, i < k → idx.lookupA (c i) = none)
    (hR : ∀ i, i < k → idx.lookupR (c i) = some (c (i + 1))) :
    (k < REDIRECT_MAX_DEPTH → ∀ id, idx.lookupA (c k) = some id →
        idx.resolve_id (c 0) = some id) ∧
    (REDIRECT_MAX_DEPTH ≤ k → idx.resolve_id (c 0) = none) := by
  constructor
  · intro hk id hid
    exact resolveAux_chain_hits idx c k id hA hR hid REDIRECT_MAX_DEPTH 0
      (Nat.zero_le k) (by simpa using hk)
  · intro hk
    unfold WikiIndex.resolve_id
    have h5 : ∀ fuel j, j + fuel ≤ k → idx.resolveAux fuel (c j) = none := by
      intro fuel
      induction fuel with
      | zero => intro j _; rfl
      | succ n ih =>
        intro j hj
        have hjk : j < k := by omega
        simp [WikiIndex.resolveAux, hA j hjk, hR j hjk]
        exact ih (j + 1) (by omega)
    exact h5 REDIRECT_MAX_DEPTH 0 (by simpa [REDIRECT_MAX_DEPTH] using hk)

/-- Witness for `resolve_id_chain_boundary`: the chain
`"A" → "B"` (one hop) with article `"B" ↦ 7` resolves to `7`. -/
theorem resolve_id_chain_boundary_witness :
    (WikiIndex.mk [("B", 7)] [("A", "B")]).resolve_id "A" = some 7 := by
  have h := resolve_id_chain_boundary (WikiIndex.mk [("B", 7)] [("A", "B")])
    (fun i => if i = 0 then "A" else "B") 1
    (by decide) (by decide)
  exact h.1 (by decide) 7 (by decide)

/-- C1 (counterexample to the claim as stated): a chain that reaches an
article in exactly `REDIRECT_MAX_DEPTH` (= 5) hops — `R0 → R1 → R2 →
R3 → R4 → R5` with article `R5 ↦ 1` — does *not* resolve: the loop
follows all five hops but exits before looking `R5` up in
`title_to_id`, so `resolve_id` returns `none` instead of `some 1`. -/
theorem resolve_id_five_hop_counterexample :
    (WikiIndex.mk [("R5", 1)]
        [("R0", "R1"), ("R1", "R2"), ("R2", "R3"), ("R3", "R4"), ("R4", "R5")]).lookupA
        "R5" = some 1 ∧
    (WikiIndex.mk [("R5", 1)]
        [("R0", "R1"), ("R1", "R2"), ("R2", "R3"), ("R3", "R4"), ("R4", "R5")]).resolve_id
        "R0" = none := by
  constructor
  · decide
  · decide

/-- C9: the `resolve_id` loop performs at most `REDIRECT_MAX_DEPTH`
redirect hops for every input (in particular it terminates on cyclic
redirect graphs with no visited set), and whenever no title reachable
from the query through `redirects` is an article — e.g. on any cycle
that never meets an article — it returns `none`. -/
theorem resolve_id_terminates_and_cycles_none (idx : WikiIndex) (t : String) :
    (idx.resolveSteps t).1 = idx.resolve_id t ∧
    (idx.resolveSteps t).2 ≤ REDIRECT_MAX_DEPTH ∧
    ((∀ s, idx.Reaches t s → idx.lookupA s = none) → idx.resolve_id t = none) := by
  have hsteps : ∀ fuel s, (idx.resolveAuxSteps fuel s).1 = idx.resolveAux fuel s ∧
      (idx.resolveAuxSteps fuel s).2 ≤ fuel := by
    intro fuel
    induction fuel with
    | zero => intro s; exact ⟨rfl, Nat.le_refl 0⟩
    | succ n ih =>
      intro s
      cases hA : idx.lookupA s with
      | some id =>
        constructor
        · simp [WikiIndex.resolveAuxSteps, WikiIndex.resolveAux, hA]
        · simp [WikiIndex.resolveAuxSteps, hA]
      | none =>
        cases hR : idx.lookupR s with
        | some target =>
          constructor
          · simp [WikiIndex.resolveAuxSteps, WikiIndex.resolveAux, hA, hR,
              (ih target).1]
          · have h2 := (ih target).2
            simp [WikiIndex.resolveAuxSteps, hA, hR]
            omega
        | none =>
          constructor
          · simp [WikiIndex.resolveAuxSteps, WikiIndex.resolveAux, hA, hR]
          · simp [WikiIndex.resolveAuxSteps, hA, hR]
  have hcyc : ∀ fuel s, idx.Reaches t s →
      (∀ u, idx.Reaches t u → idx.lookupA u = none) →
      idx.resolveAux fuel s = none := by
    intro fuel
    induction fuel with
    | zero => intro s _ _; rfl
    | succ n ih =>
      intro s hs hall
      have hA := hall s hs
      unfold WikiIndex.resolveAux
      rw [hA]
      cases hR : idx.lookupR s with
      | some target => exact ih target (WikiIndex.Reaches.step hs hR) hall
      | none => rfl
  refine ⟨(hsteps REDIRECT_MAX_DEPTH t).1, (hsteps REDIRECT_MAX_DEPTH t).2, ?_⟩
  intro hall
  exact hcyc REDIRECT_MAX_DEPTH t (WikiIndex.Reaches.refl t) hall

/-- Witness for `resolve_id_terminates_and_cycles_none`: on the two-cycle
`A → B → A` with no articles at all, the hop count is bounded by 5 and
the resolution returns `none`. -/
theorem resolve_id_terminates_and_cycles_none_witness :
    ((WikiIndex.mk [] [("A", "B"), ("B", "A")]).resolveSteps "A").2 ≤
        REDIRECT_MAX_DEPTH ∧
    (WikiIndex.mk [] [("A", "B"), ("B", "A")]).resolve_id "A" = none := by
  have h := resolve_id_terminates_and_cycles_none
    (WikiIndex.mk [] [("A", "B"), ("B", "A")]) "A"
  exact ⟨h.2.1, h.2.2 (fun s _ => rfl)⟩

/-! ## Theorems about the Checkpoint Store (claim C2) -/

/-- C2 (counterexample to the claim as stated): the code's checkpoint
carries no `csv_shard_count` and `load_if_valid` takes none, so with
every stored field matching the run, the checkpoint is returned no
matter what the run's `csv_shard_count` is — here the stored spec-level
checkpoint says 1 CSV shard while the run uses 4, the spec-modelled
validation reports a miss, but the code's validation accepts. -/
theorem load_if_valid_csv_shards_counterexample :
    load_if_valid true
        (some ⟨3, "dump.xml.bz2", 7, "out", 10, 0, ⟨0, 0, 0, 0, 0, 0, 0, 0, 0, 0⟩⟩)
        "dump.xml.bz2" "out" 10 (Except.ok 7) =
      Except.ok
        (some ⟨3, "dump.xml.bz2", 7, "out", 10, 0, ⟨0, 0, 0, 0, 0, 0, 0, 0, 0, 0⟩⟩) ∧
    spec_load_if_valid true
        (some ⟨3, "dump.xml.bz2", 7, "out", 10, 1, 0, ⟨0, 0, 0, 0, 0, 0, 0, 0, 0, 0⟩⟩)
        "dump.xml.bz2" "out" 10 4 (Except.ok 7) = Except.ok none := by
  constructor <;> rfl

/-- C2 (amended): when the input mtime is readable, `load_if_valid`
returns a stored checkpoint exactly when the file exists, the decode
succeeded and the decoded version, input path, input mtime, output
directory and `shard_count` (the code's checkpoint stores no
`csv_shard_count`) all equal the current run's parameters; in every
other case — decode error included — the result is a non-error miss. -/
theorem load_if_valid_characterization (fe : Bool) (dec : Option Checkpoint)
    (ip od : String) (sc mt : Nat) :
    (∀ c : Checkpoint,
      load_if_valid fe dec ip od sc (Except.ok mt) = Except.ok (some c) ↔
        fe = true ∧ dec = some c ∧ c.version = CHECKPOINT_VERSION ∧
        c.input_path = ip ∧ c.input_mtime = mt ∧ c.output_dir = od ∧
        c.shard_count = sc) ∧
    ∃ o, load_if_valid fe dec ip od sc (Except.ok mt) = Except.ok o := by
  cases fe with
  | false =>
    refine ⟨fun c => ?_, ⟨none, rfl⟩⟩
    simp [load_if_valid]
  | true =>
    cases dec with
    | none =>
      refine ⟨fun c => ?_, ⟨none, rfl⟩⟩
      simp [load_if_valid]
    | some c' =>
      constructor
      · intro c
        constructor
        · intro h
          unfold load_if_valid at h
          simp only [Bool.not_true, Bool.false_eq_true, if_false] at h
          split_ifs at h with h1 h2 h3 h4 h5 <;>
            simp_all
        · rintro ⟨-, hdec, hv, hp, hm, ho, hs⟩
          obtain rfl : c' = c := by simpa using hdec
          unfold load_if_valid
          simp [hv, hp, hm, ho, hs]
      · unfold load_if_valid
        simp only [Bool.not_true, Bool.false_eq_true, if_false]
        split_ifs <;> exact ⟨_, rfl⟩

/-- Witness for `load_if_valid_characterization`: a fully matching
checkpoint is returned. -/
theorem load_if_valid_characterization_witness :
    load_if_valid true
        (some ⟨3, "in.bz2", 9, "outdir", 5, 42, ⟨1, 2, 3, 4, 5, 6, 7, 8, 9, 10⟩⟩)
        "in.bz2" "outdir" 5 (Except.ok 9) =
      Except.ok (some ⟨3, "in.bz2", 9, "outdir", 5, 42, ⟨1, 2, 3, 4, 5, 6, 7, 8, 9, 10⟩⟩) := by
  exact ((load_if_valid_characterization true
    (some ⟨3, "in.bz2", 9, "outdir", 5, 42, ⟨1, 2, 3, 4, 5, 6, 7, 8, 9, 10⟩⟩)
    "in.bz2" "outdir" 5 9).1 _).mpr
    ⟨rfl, rfl, rfl, rfl, rfl, rfl, rfl⟩

/-! ## Theorems about per-page link processing (claim C5) -/

/-- C5: the wikilink loop of `run_extraction` emits, for each match
whose target (after cutting at `#` and the namespace filter) resolves
through the Title Index, exactly one edge whose type is `SEE_ALSO` when
a see-also section start exists and the match offset is at or beyond
it and `LINKS_TO` otherwise, and counts exactly one invalid link per
unresolved surviving target. -/
theorem processLinks_eq_claim (idx : WikiIndex) (sa : Option Nat)
    (ms : List LinkMatch) :
    processLinks idx sa ms = (claimEdges idx sa ms, claimInvalid idx ms) := by
  induction ms with
  | nil => rfl
  | cons m ms ih =>
    cases hE : (strip_section_anchor m.target).isEmpty with
    | true =>
      simp [processLinks, claimEdges, claimInvalid, List.filterMap_cons,
        List.filter_cons, hE, ih]
    | false =>
      cases hN : is_namespace_link (strip_section_anchor m.target) with
      | true =>
        simp [processLinks, claimEdges, claimInvalid, List.filterMap_cons,
          List.filter_cons, hE, hN, ih]
      | false =>
        cases hr : idx.resolve_id (strip_section_anchor m.target) with
        | some id =>
          simp [processLinks, claimEdges, claimInvalid, List.filterMap_cons,
            List.filter_cons, hE, hN, hr, ih]
        | none =>
          simp [processLinks, claimEdges, claimInvalid, List.filterMap_cons,
            List.filter_cons, hE, hN, hr, ih]

/-! ## Theorems about template stripping (claim C3) -/

/-- The code scanner agrees with the spec-modelled scanner up to at most
one retained trailing character: when the inner skip loop runs off the
end of an unclosed template, `i + 1 < bytes.len()` stops the scan one
byte early and the final `text[run_start..]` push emits that byte. -/
theorem stripScan_spec_rel (n : Nat) :
    ∀ (mode : Option Nat) (l : List Char), l.length ≤ n →
      stripScan mode l = specStripScan mode l ∨
      ∃ c, stripScan mode l = specStripScan mode l ++ [c] := by
  induction n with
  | zero =>
    intro mode l hl
    have : l = [] := List.length_eq_zero.mp (Nat.le_zero.mp hl)
    subst this
    cases mode <;> simp [stripScan, specStripScan]
  | succ n ih =>
    intro mode l hl
    match mode, l with
    | none, [] => left; simp [stripScan, specStripScan]
    | none, [c] => left; simp [stripScan, specStripScan]
    | none, a :: b :: rest =>
      by_cases hab : a = '{' ∧ b = '{'
      · have h := ih (some 1) rest (by simp at hl; omega)
        rcases h with h | ⟨c, h⟩
        · left; simp [stripScan, specStripScan, hab, h]
        · right; exact ⟨c, by simp [stripScan, specStripScan, hab, h]⟩
      · have h := ih none (b :: rest) (by simp at hl ⊢; omega)
        rcases h with h | ⟨c, h⟩
        · left; simp [stripScan, specStripScan, hab, h]
        · right; exact ⟨c, by simp [stripScan, specStripScan, hab, h]⟩
    | some d, [] => left; simp [stripScan, specStripScan]
    | some d, [c] =>
      right; exact ⟨c, by simp [stripScan, specStripScan]⟩
    | some d, a :: b :: rest =>
      by_cases h1 : a = '{' ∧ b = '{'
      · have h := ih (some (d + 1)) rest (by simp at hl; omega)
        rcases h with h | ⟨c, h⟩
        · left; simp [stripScan, specStripScan, h1, h]
        · right; exact ⟨c, by simp [stripScan, specStripScan, h1, h]⟩
      · by_cases h2 : a = '}' ∧ b = '}'
        · by_cases h3 : d = 1
          · have h := ih none rest (by simp at hl; omega)
            rcases h with h | ⟨c, h⟩
            · left; simp [stripScan, specStripScan, h1, h2, h3, h]
            · right; exact ⟨c, by simp [stripScan, specStripScan, h1, h2, h3, h]⟩
          · have h := ih (some (d - 1)) rest (by simp at hl; omega)
            rcases h with h | ⟨c, h⟩
            · left; simp [stripScan, specStripScan, h1, h2, h3, h]
            · right; exact ⟨c, by simp [stripScan, specStripScan, h1, h2, h3, h]⟩
        · have h := ih (some d) (b :: rest) (by simp at hl ⊢; omega)
          rcases h with h | ⟨c, h⟩
          · left; simp [stripScan, specStripScan, h1, h2, h]
          · right; exact ⟨c, by simp [stripScan, specStripScan, h1, h2, h]⟩

/-- C3 (amended): `strip_templates` removes each `{{…}}` span balanced
by nesting and concatenates the text outside every such span in order,
exactly as the spec-modelled `spec_strip_templates` does — except that
when a `{{` is never closed, the rest of the text from that opener is
dropped save possibly the final character of the text, which is
retained whenever the unclosed scan stops one character short of the
end. -/
theorem strip_templates_spec (text : List Char) :
    strip_templates text = spec_strip_templates text ∨
    ∃ c, strip_templates text = spec_strip_templates text ++ [c] := by
  exact stripScan_spec_rel text.length none text (Nat.le_refl _)

/-- C3 (counterexample to the claim as stated): on the unclosed input
`{{a` the claim demands the empty output (the whole rest dropped), as
the spec-modelled scanner produces, but the code retains the final
character and returns `a`. -/
theorem strip_templates_unclosed_counterexample :
    strip_templates ['{', '{', 'a'] = ['a'] ∧
    spec_strip_templates ['{', '{', 'a'] = [] ∧
    (['a'] : List Char) ≠ [] := by
  refine ⟨?_, ?_, by simp⟩
  · simp [strip_templates, stripScan]
  · simp [spec_strip_templates, specStripScan]

/-! ## Theorems about index serialization (claim C7) -/

/-- On association lists with unique keys, `List.lookup` is invariant
under permutation of the bindings. -/
theorem lookup_perm_of_keysNodup {α β : Type} [BEq α] [LawfulBEq α]
    {l l' : List (α × β)} (hp : l.Perm l') :
    keysNodup l → ∀ a, l.lookup a = l'.lookup a := by
  induction hp with
  | nil => intro _ a; rfl
  | cons x h ih =>
    intro hn a
    obtain ⟨k, v⟩ := x
    simp only [keysNodup, List.map_cons, List.nodup_cons] at hn
    cases hak : a == k with
    | true => simp [List.lookup, hak]
    | false => simp [List.lookup, hak, ih hn.2 a]
  | swap x y l =>
    intro hn a
    obtain ⟨k₁, v₁⟩ := x
    obtain ⟨k₂, v₂⟩ := y
    have hne : k₂ ≠ k₁ := by
      simp only [keysNodup, List.map_cons, List.nodup_cons, List.mem_cons] at hn
      exact fun he => hn.1 (Or.inl he)
    cases h1 : a == k₂ with
    | true =>
      have h2 : (a == k₁) = false := by
        have : a = k₂ := eq_of_beq h1
        subst this
        exact beq_eq_false_iff_ne.mpr hne
      simp [List.lookup, h1, h2]
    | false =>
      cases h2 : a == k₁ with
      | true => simp [List.lookup, h1, h2]
      | false => simp [List.lookup, h1, h2]
  | trans h₁ h₂ ih₁ ih₂ =>
    intro hn a
    rw [ih₁ hn a, ih₂ (((h₁.map Prod.fst).nodup_iff).mp hn) a]

/-- `resolve_id` depends on an index only through its two lookup
functions. -/
theorem resolveAux_congr (idx idx' : WikiIndex)
    (hA : ∀ s, idx.lookupA s = idx'.lookupA s)
    (hR : ∀ s, idx.lookupR s = idx'.lookupR s) :
    ∀ fuel t, idx.resolveAux fuel t = idx'.resolveAux fuel t := by
  intro fuel
  induction fuel with
  | zero => intro t; rfl
  | succ n ih =>
    intro t
    cases h1 : idx'.lookupA t with
    | some id => simp [WikiIndex.resolveAux, hA t, h1]
    | none =>
      cases h2 : idx'.lookupR t with
      | some target => simp [WikiIndex.resolveAux, hA t, h1, hR t, h2, ih target]
      | none => simp [WikiIndex.resolveAux, hA t, h1, hR t, h2]

/-- C7: for a well-formed index (unique keys, the `HashMap` invariant),
rebuilding the index from any `HashMap`-iteration-order permutation of
`to_serializable`'s output via `from_serializable` preserves every
defined resolution: if `resolve_id t = some id` before caching, the
reconstructed index also resolves `t` to `id`. -/
theorem resolve_id_from_to_serializable (idx : WikiIndex) (hwf : idx.WF)
    (articles : List (String × Nat)) (redirects : List (String × String))
    (hart : (idx.to_serializable).1.Perm articles)
    (hred : (idx.to_serializable).2.Perm redirects)
    (t : String) (id : Nat) (h : idx.resolve_id t = some id) :
    (WikiIndex.from_serializable articles redirects).resolve_id t = some id := by
  have hA : ∀ s, idx.lookupA s =
      (WikiIndex.from_serializable articles redirects).lookupA s := by
    intro s
    exact lookup_perm_of_keysNodup (hart.trans articles.reverse_perm.symm) hwf.1 s
  have hR : ∀ s, idx.lookupR s =
      (WikiIndex.from_serializable articles redirects).lookupR s := by
    intro s
    exact lookup_perm_of_keysNodup (hred.trans redirects.reverse_perm.symm) hwf.2 s
  rw [← h]
  exact (resolveAux_congr idx _ hA hR REDIRECT_MAX_DEPTH t).symm

/-- Witness for `resolve_id_from_to_serializable`: a three-article,
one-redirect index is serialized, the article vector is permuted, and
the rebuilt index still resolves the redirect source to `1`. -/
theorem resolve_id_from_to_serializable_witness :
    (WikiIndex.from_serializable [("B", 2), ("A", 1)] [("C", "A")]).resolve_id
      "C" = some 1 := by
  exact resolve_id_from_to_serializable
    (WikiIndex.mk [("A", 1), ("B", 2)] [("C", "A")]) (by decide)
    [("B", 2), ("A", 1)] [("C", "A")] (by decide) (by decide) "C" 1 (by decide)

/-! ## Theorems about field sanitisation (claim C8) -/

/-- Every word produced by `splitWs` is nonempty and free of whitespace
characters. -/
theorem splitWs_words (n : Nat) :
    ∀ l : List Char, l.length ≤ n → ∀ w ∈ splitWs l,
      w ≠ [] ∧ ∀ c ∈ w, isRustWhitespace c = false := by
  induction n with
  | zero =>
    intro l hl
    have : l = [] := List.length_eq_zero.mp (Nat.le_zero.mp hl)
    subst this
    simp [splitWs]
  | succ n ih =>
    intro l hl w hw
    match l with
    | [] => simp [splitWs] at hw
    | c :: cs =>
      by_cases hc : isRustWhitespace c = true
      · rw [show splitWs (c :: cs) = splitWs cs by simp [splitWs, hc]] at hw
        exact ih cs (by simp at hl; omega) w hw
      · rw [show splitWs (c :: cs) =
            (c :: cs).takeWhile (fun x => !isRustWhitespace x) ::
              splitWs ((c :: cs).dropWhile fun x => !isRustWhitespace x) by
            simp [splitWs, hc]] at hw
        rcases List.mem_cons.mp hw with rfl | hw'
        · constructor
          · rw [List.takeWhile_cons]
            simp [hc]
          · intro x hx
            have := List.mem_takeWhile_imp hx
            simpa using this
        · have hdrop : ((c :: cs).dropWhile fun x => !isRustWhitespace x).length ≤ n := by
            rw [List.dropWhile_cons]
            simp only [hc, Bool.not_false, if_true]
            have := (List.dropWhile_suffix
              (fun x => !isRustWhitespace x) (l := cs)).sublist.length_le
            simp at hl
            omega
          exact ih _ hdrop w hw'

/-- Every character of `joinWords ws` is a separator space or a
character of one of the words. -/
theorem mem_joinWords : ∀ (ws : List (List Char)) (x : Char),
    x ∈ joinWords ws → x = ' ' ∨ ∃ w ∈ ws, x ∈ w := by
  intro ws
  induction ws with
  | nil => intro x hx; simp [joinWords] at hx
  | cons w ws ih =>
    intro x hx
    cases ws with
    | nil =>
      right
      exact ⟨w, by simp, by simpa [joinWords] using hx⟩
    | cons w' rest =>
      rw [show joinWords (w :: w' :: rest) = w ++ ' ' :: joinWords (w' :: rest)
        from rfl] at hx
      rcases List.mem_append.mp hx with hx | hx
      · exact Or.inr ⟨w, by simp, hx⟩
      · rcases List.mem_cons.mp hx with rfl | hx
        · exact Or.inl rfl
        · rcases ih x hx with h | ⟨u, hu, hxu⟩
          · exact Or.inl h
          · exact Or.inr ⟨u, List.mem_cons_of_mem _ hu, hxu⟩

/-- A list without whitespace characters has no whitespace run. -/
theorem wsCollapsed_of_all_nonWs :
    ∀ l : List Char, (∀ c ∈ l, isRustWhitespace c = false) → wsCollapsed l := by
  intro l
  induction l with
  | nil => intro _; simp [wsCollapsed]
  | cons a l ih =>
    intro h
    cases l with
    | nil => exact List.chain'_singleton a
    | cons b m =>
      refine List.chain'_cons.mpr ⟨?_, ih fun c hc => h c (List.mem_cons_of_mem _ hc)⟩
      intro hab
      rw [h a (by simp)] at hab
      exact absurd hab.1 (by simp)

/-- The head of `joinWords` over a nonempty first word is that word's
head. -/
theorem joinWords_head? (w : List Char) (ws : List (List Char)) (hw : w ≠ []) :
    (joinWords (w :: ws)).head? = w.head? := by
  cases ws with
  | nil => rfl
  | cons w' rest =>
    rw [show joinWords (w :: w' :: rest) = w ++ ' ' :: joinWords (w' :: rest)
      from rfl]
    cases w with
    | nil => exact absurd rfl hw
    | cons a m => rfl

/-- Joining nonempty whitespace-free words with single spaces yields a
list in which no two adjacent characters are both whitespace. -/
theorem wsCollapsed_joinWords :
    ∀ ws : List (List Char),
      (∀ w ∈ ws, w ≠ [] ∧ ∀ c ∈ w, isRustWhitespace c = false) →
      wsCollapsed (joinWords ws) := by
  intro ws
  induction ws with
  | nil => intro _; simp [joinWords, wsCollapsed]
  | cons w ws ih =>
    intro h
    cases ws with
    | nil =>
      exact wsCollapsed_of_all_nonWs w (h w (by simp)).2
    | cons w' rest =>
      rw [show joinWords (w :: w' :: rest) = w ++ ' ' :: joinWords (w' :: rest)
        from rfl]
      refine (List.chain'_append).mpr ⟨wsCollapsed_of_all_nonWs w (h w (by simp)).2,
        ?_, ?_⟩
      · refine List.chain'_cons'.mpr ⟨?_, ?_⟩
        · intro y hy
          rw [joinWords_head? w' rest (h w' (by simp)).1] at hy
          have hyw : y ∈ w' := List.mem_of_mem_head? hy
          intro hc
          rw [(h w' (by simp)).2 y hyw] at hc
          exact absurd hc.2 (by simp)
        · exact ih fun u hu => h u (List.mem_cons_of_mem _ hu)
      · intro x hx y hy
        have hxw : x ∈ w := List.mem_of_mem_getLast? hx
        have hy' : ' ' = y := by simpa using hy
        subst hy'
        intro hc
        rw [(h w (by simp)).2 x hxw] at hc
        exact absurd hc.1 (by simp)

/-- `sanitize_field` never emits a raw newline or carriage return. -/
theorem sanitize_field_no_newline (s : List Char) :
    '\n' ∉ sanitize_field s ∧ '\r' ∉ sanitize_field s := by
  unfold sanitize_field
  split_ifs with h
  · constructor <;> intro hmem <;>
      rcases mem_joinWords _ _ hmem with h' | ⟨w, hw, hcw⟩
    · exact absurd h' (by decide)
    · have := (splitWs_words (replaceNewlines s).length (replaceNewlines s)
        (Nat.le_refl _) w hw).2 '\n' hcw
      simp [isRustWhitespace] at this
    · exact absurd h' (by decide)
    · have := (splitWs_words (replaceNewlines s).length (replaceNewlines s)
        (Nat.le_refl _) w hw).2 '\r' hcw
      simp [isRustWhitespace] at this
  · simp only [not_or] at h
    constructor <;> intro hmem
    · exact h.1 (by simpa using hmem)
    · exact h.2 (by simpa using hmem)

/-- C8 (amended): every string returned by `extract_categories`,
`extract_images` or `extract_external_links` contains no raw newline or
carriage-return character; and whenever the sanitised text contained a
newline or carriage return, the result additionally has every
whitespace run collapsed (no two adjacent whitespace characters).  A
capture without newlines is returned trimmed but otherwise unmodified,
so pre-existing whitespace runs survive in that case. -/
theorem extract_fields_newline_free :
    (∀ (captures : List (List Char)) (out : List Char),
      out ∈ extract_categories captures ∨ out ∈ extract_images captures ∨
        out ∈ extract_external_links captures →
      '\n' ∉ out ∧ '\r' ∉ out) ∧
    (∀ s : List Char, '\n' ∈ s ∨ '\r' ∈ s → wsCollapsed (sanitize_field s)) := by
  constructor
  · intro captures out hmem
    have hout : ∃ c, out = sanitize_field (trimChars c) := by
      rcases hmem with h | h | h <;>
      · simp only [extract_categories, extract_images, extract_external_links,
          List.mem_filter, List.mem_map] at h
        obtain ⟨⟨c, _, rfl⟩, -⟩ := h
        exact ⟨c, rfl⟩
    obtain ⟨c, rfl⟩ := hout
    exact sanitize_field_no_newline _
  · intro s hs
    have hc : (s.contains '\n' ∨ s.contains '\r') := by
      rcases hs with h | h
      · exact Or.inl (by simpa using h)
      · exact Or.inr (by simpa using h)
    unfold sanitize_field
    rw [if_pos hc]
    exact wsCollapsed_joinWords _
      (splitWs_words (replaceNewlines s).length (replaceNewlines s) (Nat.le_refl _))

/-- Witness for `extract_fields_newline_free`: the capture `ab` passes
through untouched and contains no newline; sanitising `a\nb` yields a
whitespace-collapsed string. -/
theorem extract_fields_newline_free_witness :
    ('\n' ∉ (['a', 'b'] : List Char) ∧ '\r' ∉ (['a', 'b'] : List Char)) ∧
    wsCollapsed (sanitize_field ['a', '\n', 'b']) := by
  constructor
  · exact extract_fields_newline_free.1 [['a', 'b']] ['a', 'b'] (Or.inl (by decide))
  · exact extract_fields_newline_free.2 ['a', '\n', 'b'] (Or.inl (by decide))

/-- C8 (counterexample to the claim as stated): a category capture with
an internal double space but no newline is returned with the run of
whitespace intact, so the emitted string does *not* have its
whitespace runs collapsed. -/
theorem extract_categories_run_counterexample :
    extract_categories [['a', ' ', ' ', 'b']] = [['a', ' ', ' ', 'b']] ∧
    ¬ wsCollapsed ['a', ' ', ' ', 'b'] := by
  constructor
  · rfl
  · intro h
    exact (List.chain'_cons.mp (List.chain'_cons.mp h).2).1 ⟨rfl, rfl⟩

/-! ## Theorems about the dump reader (claims C4 and C10) -/

/-- C4 (counterexample to the claim as stated): the reader's local state
is not reset when a malformed page is skipped inside one `next()` call,
so a `<redirect title="T"/>` observed in a skipped page (here one with
no id and no title) classifies the *following* page — in which no
redirect element was observed — as `Redirect("T")` instead of
`Article`. -/
theorem readNext_redirect_leak_counterexample :
    readNext true initReaderState
        ([.emptyTag .redirect (some "T"), .close .page] ++ titleEvents "A" ++
          idEvents "1" ++ [.close .page]) =
      some (⟨1, "A", PageType.redirect "T", none, none, none⟩, []) ∧
    PageType.redirect "T" ≠ PageType.article := by
  constructor
  · rfl
  · decide

/-- C4 (amended): when a `next()` call starts at the beginning of a
well-formed `<page>` (so no state leaks in from earlier skipped pages
of the same call), the emitted record is classified from the page's own
elements exactly as the claim states: an observed
`<redirect title="X"/>` gives `Redirect(X)`; else a present non-zero
`<ns>` gives `Special`; else with `<ns>` missing a
`File:`/`Category:`/`Template:` title prefix gives `Special`;
otherwise `Article`.  In general the classification uses the redirect
and namespace state accumulated since the start of the call, which the
counterexample shows may come from an earlier skipped page. -/
theorem readNext_single_page_classification
    (skipText : Bool) (t sid : String) (i : Nat) (red : Option String)
    (sns : Option String) (rest : List XmlEvent)
    (hid : parseU32 sid = some i) :
    readNext skipText initReaderState (pageEvents t sid red sns ++ rest) =
      some (⟨i, t, claimClassify red (sns.bind parseI32) t, none,
        sns.bind parseI32, none⟩, rest) := by
  cases red <;> cases sns <;>
    simp [pageEvents, titleEvents, idEvents, nsEvents, redirectEvents, readNext,
      initReaderState, hid, claimClassify, classifyPage]

/-- Witness for `readNext_single_page_classification`: a page titled
`A`, id text `1`, no redirect, namespace text `5`, is emitted as a
`Special` page with id 1 and namespace 5. -/
theorem readNext_single_page_classification_witness :
    readNext true initReaderState (pageEvents "A" "1" none (some "5") ++ []) =
      some (⟨1, "A", PageType.special, none, some 5, none⟩, []) := by
  have h := readNext_single_page_classification true "A" "1" 1 none (some "5") []
    (by decide)
  rw [h]
  decide

/-- C10 (counterexample to the claim as stated): a page whose *first*
`<id>` text does not parse as a `u32` is not skipped when a later
`<id>` parses.  Since the failed parse leaves `current_id = None`, the
`current_id.is_none()` guard re-opens capture at the `<revision>`'s
`<id>` — present in every real dump page — and `</page>` emits a
record *for that page* carrying the revision id `999`, although the
claim demands that no record be emitted for it (and the spec's reader
section says ids under `<revision>` must be ignored). -/
theorem readNext_revision_id_fallback_counterexample :
    readNext true initReaderState (revisionPageEvents "T" "x" "999") =
      some (⟨999, "T", PageType.article, none, none, none⟩, []) := by
  rfl

/-- C10 (amended): a `<page>` in which *no* `<id>` text parses as a
`u32` before `</page>`, or which captures no `<title>`, produces no
page record and no error: the reader silently continues and the next
record comes from the following page (first two conjuncts).  An
unparseable first `<id>` alone does not suppress the record: because
`current_id` is still `None`, the capture guard re-opens at the next
`<id>` and a parseable revision id supplies the id of a record that
*is* emitted for that page (third conjunct).  The second conjunct also
records the one observable leak: a parsed id of a title-less skipped
page survives — only `current_title` is cleared at the failed
`</page>` — so the following page's record carries the leaked id `i`
while its own `<id>` is ignored. -/
theorem readNext_malformed_page_handling
    (skipText : Bool) (t s1 s2 s3 s4 tg u : String) (i j k : Nat)
    (rest : List XmlEvent)
    (hs1 : parseU32 s1 = none) (hs2 : parseU32 s2 = none)
    (hs3 : parseU32 s3 = some i) (hs4 : parseU32 s4 = some k)
    (hu : parseU32 u = some j) :
    readNext skipText initReaderState
        (revisionPageEvents t s1 s2 ++ (titleEvents tg ++ idEvents u ++
          [.close .page]) ++ rest) =
      some (⟨j, tg, classifyPage none none tg, none, none, none⟩, rest) ∧
    readNext skipText initReaderState
        (noTitlePageEvents s3 ++ (titleEvents tg ++ idEvents u ++
          [.close .page]) ++ rest) =
      some (⟨i, tg, classifyPage none none tg, none, none, none⟩, rest) ∧
    readNext skipText initReaderState (revisionPageEvents t s1 s4 ++ rest) =
      some (⟨k, t, classifyPage none none t, none, none, none⟩, rest) := by
  refine ⟨?_, ?_, ?_⟩ <;>
    simp [revisionPageEvents, noTitlePageEvents, titleEvents, idEvents, readNext,
      initReaderState, hs1, hs2, hs3, hs4, hu]

/-- Witness for `readNext_malformed_page_handling`: after a page whose
two id texts `x` and `y` both fail to parse, the following page `C` is
emitted with its own id 2; after a title-less page with id 7 the
following page `C` is emitted with the leaked id 7; and a page `T`
with unparseable first id `x` and revision id `999` is itself emitted
with id 999. -/
theorem readNext_malformed_page_handling_witness :
    readNext true initReaderState
        (revisionPageEvents "T" "x" "y" ++ (titleEvents "C" ++ idEvents "2" ++
          [.close .page]) ++ []) =
      some (⟨2, "C", PageType.article, none, none, none⟩, []) ∧
    readNext true initReaderState
        (noTitlePageEvents "7" ++ (titleEvents "C" ++ idEvents "2" ++
          [.close .page]) ++ []) =
      some (⟨7, "C", PageType.article, none, none, none⟩, []) ∧
    readNext true initReaderState (revisionPageEvents "T" "x" "999" ++ []) =
      some (⟨999, "T", PageType.article, none, none, none⟩, []) := by
  have h := readNext_malformed_page_handling true "T" "x" "y" "7" "999" "C" "2"
    7 2 999 [] (by decide) (by decide) (by decide) (by decide) (by decide)
  refine ⟨?_, ?_, ?_⟩
  · rw [h.1]; decide
  · rw [h.2.1]; decide
  · rw [h.2.2]; decide

/-! ## Theorems about the article blob JSON round trip (claim C6) -/

/-- Decoding the string-array encoding of a string list restores it. -/
theorem mapM_asStr_map_str (l : List String) :
    optionMapM Json.asStr (l.map Json.str) = some l := by
  induction l with
  | nil => rfl
  | cons a l ih => simp [optionMapM, Json.asStr, ih]

/-- Decoding the pair-array encoding of a string-pair list restores
it. -/
theorem mapM_asStrPair_map (l : List (String × String)) :
    optionMapM Json.asStrPair
        (l.map fun p => Json.arr [Json.str p.1, Json.str p.2]) = some l := by
  induction l with
  | nil => rfl
  | cons a l ih => simp [optionMapM, Json.asStrPair, Json.asStr, ih]

/-- An `Infobox` decodes back from its serialization. -/
theorem parseInfobox_serializeInfobox (ib : Infobox) :
    parseInfobox (serializeInfobox ib) = some ib := by
  obtain ⟨t, fields⟩ := ib
  simp [parseInfobox, serializeInfobox, List.lookup, Json.asStr,
    mapM_asStrPair_map]

/-- An infobox list decodes back from its serialization. -/
theorem mapM_parseInfobox_map (l : List Infobox) :
    optionMapM parseInfobox (l.map serializeInfobox) = some l := by
  induction l with
  | nil => rfl
  | cons a l ih => simp [optionMapM, parseInfobox_serializeInfobox, ih]

/-- C6: the JSON serialization of an `ArticleBlob` carries the
`categories`, `infoboxes` and `sections` fields exactly when they are
nonempty, the `timestamp` field exactly when it is some, and the
`is_disambiguation` field exactly when it is true; and decoding the
serialized object — with the omitted fields defaulting to
empty/none/false — restores the original blob, so a parse →
re-serialize round trip is the identity on serialized blobs. -/
theorem articleBlob_roundtrip (b : ArticleBlob) :
    (("categories" ∈ (serializeBlob b).map Prod.fst ↔ b.categories ≠ []) ∧
     ("infoboxes" ∈ (serializeBlob b).map Prod.fst ↔ b.infoboxes ≠ []) ∧
     ("sections" ∈ (serializeBlob b).map Prod.fst ↔ b.sections ≠ []) ∧
     ("timestamp" ∈ (serializeBlob b).map Prod.fst ↔ b.timestamp ≠ none) ∧
     ("is_disambiguation" ∈ (serializeBlob b).map Prod.fst ↔
       b.is_disambiguation = true)) ∧
    parseBlob (serializeBlob b) = some b := by
  obtain ⟨id, title, abs, cats, ibs, secs, ts, dis⟩ := b
  constructor
  · by_cases hc : cats = [] <;> by_cases hi : ibs = [] <;> by_cases hs : secs = [] <;>
      cases ts <;> cases dis <;>
      simp [serializeBlob, List.isEmpty_iff, hc, hi, hs]
  · by_cases hc : cats = [] <;> by_cases hi : ibs = [] <;> by_cases hs : secs = [] <;>
      cases ts <;> cases dis <;>
      simp [serializeBlob, parseBlob, List.isEmpty_iff, hc, hi, hs, List.lookup,
        Json.asNum, Json.asStr, Json.asBool, Json.asStrList, mapM_asStr_map_str,
        mapM_parseInfobox_map]

/-- Witness for `articleBlob_roundtrip`: a concrete blob with all
optional fields populated parses back from its serialization. -/
theorem articleBlob_roundtrip_witness :
    parseBlob (serializeBlob ⟨7, "T", "A", ["c"], [⟨"Infobox x", [("k", "v")]⟩],
        ["s"], some "2024", true⟩) =
      some ⟨7, "T", "A", ["c"], [⟨"Infobox x", [("k", "v")]⟩], ["s"], some "2024",
        true⟩ :=
  (articleBlob_roundtrip ⟨7, "T", "A", ["c"], [⟨"Infobox x", [("k", "v")]⟩], ["s"],
    some "2024", true⟩).2

end Dedalus
